/-
Verification of the strategic-bug-fixer repository core:
the fix-apply-test-rollback engine (src/bug-fixer.js), the CI retry driver
(the ci-bug-fixer section of the same source) and the cost tracker
(src/cost-monitor.js), shallowly embedded in Lean 4.

Strings are modelled as Lean `String` (lists of characters); the JavaScript
`trim` and the `\s` regex class are modelled over the ASCII whitespace
characters relevant to the inputs considered here.  Effectful collaborators
(the generative-model call, the shell test run, file writes, the GitHub cost
tracker) are modelled as explicit outcome parameters threaded through the
pure control flow translated from the source.  Monetary amounts are
rationals.  A thrown JavaScript exception is an `Except.error` carrying the
message; the single target file's store is an `Option String` (`none` when
the file does not exist), and a fallible write either succeeds atomically or
throws, leaving the previous content.
-/
import Mathlib

set_option maxRecDepth 10000

/-! ## JavaScript string trim (used by extractCleanCode in bug-fixer.js) -/

/-- Whitespace recognised by the embedding of JavaScript `String.trim` and
of the regex class `\s`. -/
def isJsSpace (c : Char) : Bool :=
  c == ' ' || c == '\t' || c == '\n' || c == '\r' || c == '\x0b' || c == '\x0c'

/-- Trim on character lists: drop whitespace from both ends. -/
def trimL (l : List Char) : List Char :=
  ((l.dropWhile isJsSpace).reverse.dropWhile isJsSpace).reverse

/-! ## extractCleanCode (bug-fixer.js lines 59-69)

The source trims the response; when the result starts with a fence it
removes the first match of `^` + fence + optional `javascript`/`js` tag +
optional newline, then the first match of optional newline + fence + `$`,
and trims again. -/

/-- The three-backtick fence marker, as a character list. -/
def fenceMark : List Char := ['\x60', '\x60', '\x60']

/-- Strip the optional language tag after the opening fence: the regex
alternation tries `javascript` first, then `js`, then the empty option. -/
def stripLang (l : List Char) : List Char :=
  if ("javascript".data).isPrefixOf l then l.drop 10
  else if ("js".data).isPrefixOf l then l.drop 2
  else l

/-- Strip the single optional newline after the opening fence. -/
def stripLeadNl : List Char → List Char
  | '\n' :: t => t
  | l => l

/-- Drop the last `n` characters. -/
def dropEnd (n : Nat) (l : List Char) : List Char := (l.reverse.drop n).reverse

/-- Strip the closing-fence regex match: an optional newline followed by
three backticks anchored at the end of the string. -/
def stripCloseFence (l : List Char) : List Char :=
  if ('\n' :: fenceMark).isSuffixOf l then dropEnd 4 l
  else if fenceMark.isSuffixOf l then dropEnd 3 l
  else l

/-- The fence-stripping step between the two trims. -/
def eccMid (c : List Char) : List Char :=
  if fenceMark.isPrefixOf c then stripCloseFence (stripLeadNl (stripLang (c.drop 3)))
  else c

/-- Core of extractCleanCode on character lists. -/
def ecc (l : List Char) : List Char := trimL (eccMid (trimL l))

/-- Embedding of `extractCleanCode` from bug-fixer.js. -/
def extractCleanCode (s : String) : String := ⟨ecc s.data⟩

/-! ## countChangedLines (bug-fixer.js lines 114-128) -/

/-- Split a character list at newline characters, as JavaScript
`split('\n')` does (the empty string splits to one empty line). -/
def splitLines : List Char → List (List Char)
  | [] => [[]]
  | c :: t =>
    if c = '\n' then [] :: splitLines t
    else
      match splitLines t with
      | [] => [[c]]
      | h :: r => (c :: h) :: r

/-- Join lines back with newlines; inverse of `splitLines`. -/
def joinNl : List (List Char) → List Char
  | [] => []
  | [x] => x
  | x :: y :: t => x ++ '\n' :: joinNl (y :: t)

/-- Positional comparison of two line sequences up to the longer length:
a position where only one side has a line always counts as changed
(the JavaScript code compares the string against `undefined` there). -/
def changedCount : List (List Char) → List (List Char) → Nat
  | [], [] => 0
  | [], _ :: tb => 1 + changedCount [] tb
  | _ :: ta, [] => 1 + changedCount ta []
  | a :: ta, b :: tb => (if a = b then 0 else 1) + changedCount ta tb

/-- Embedding of `countChangedLines` from bug-fixer.js. -/
def countChangedLines (original fixed : String) : Nat :=
  changedCount (splitLines original.data) (splitLines fixed.data)

/-! ## Result records (bug-fixer.js lines 79-106)

The timestamp and the spread metadata of the source records are
environment-dependent display data and are not modelled; the fields the
claims are about are kept.  Fields that exist only on one kind of result
are `Option`s. -/

structure FixBugResult where
  success : Bool
  filename : String
  originalCode : Option String
  fixedCode : Option String
  linesChanged : Option Nat
  error : Option String
  deriving DecidableEq

/-- Embedding of `createSuccessResult`. -/
def createSuccessResult (originalCode fixedCode filename : String) : FixBugResult :=
  { success := true, filename := filename, originalCode := some originalCode,
    fixedCode := some fixedCode,
    linesChanged := some (countChangedLines originalCode fixedCode), error := none }

/-- Embedding of `createErrorResult`; `errMsg` is the thrown error's message. -/
def createErrorResult (filename errMsg : String) : FixBugResult :=
  { success := false, filename := filename, originalCode := none, fixedCode := none,
    linesChanged := none, error := some errMsg }

/-! ## Cost tracker (cost-monitor.js lines 152-267) -/

/-- The closure state of `createCostTracker`: spend and count so far, the
`toDateString` value captured at the last reset, and the two limits. -/
structure CostTracker where
  dailySpend : Rat
  fixCount : Nat
  lastReset : String
  dailyLimit : Rat
  perFixLimit : Rat
  deriving DecidableEq

/-- Embedding of `checkAndResetDaily` (cost-monitor.js lines 162-169):
zero the counters when today's date string differs from the stored one. -/
def checkAndResetDaily (today : String) (t : CostTracker) : CostTracker :=
  if today ≠ t.lastReset then
    { t with dailySpend := 0, fixCount := 0, lastReset := today }
  else t

structure AffordCheck where
  allowed : Bool
  withinDailyLimit : Bool
  withinPerFixLimit : Bool
  estimatedCost : Rat
  dailySpend : Rat
  remainingDaily : Rat
  deriving DecidableEq

/-- Embedding of `canAfford` (cost-monitor.js lines 197-211); returns the
frozen check record together with the (possibly rolled-over) new state. -/
def canAfford (today : String) (estimatedCost : Rat) (t0 : CostTracker) :
    AffordCheck × CostTracker :=
  let t := checkAndResetDaily today t0
  let withinDaily := decide (t.dailySpend + estimatedCost ≤ t.dailyLimit)
  let withinPerFix := decide (estimatedCost ≤ t.perFixLimit)
  (⟨withinDaily && withinPerFix, withinDaily, withinPerFix, estimatedCost,
    t.dailySpend, t.dailyLimit - t.dailySpend⟩, t)

structure RecordStats where
  cost : Rat
  dailySpend : Rat
  fixCount : Nat
  dailyLimit : Rat
  remainingBudget : Rat
  deriving DecidableEq

/-- Embedding of `recordFix` (cost-monitor.js lines 178-190): lazily roll
over the day, then unconditionally add the cost and bump the counter.  The
function is total: it cannot reject. -/
def recordFix (today : String) (cost : Rat) (t0 : CostTracker) :
    RecordStats × CostTracker :=
  let t1 := checkAndResetDaily today t0
  let t2 := { t1 with dailySpend := t1.dailySpend + cost, fixCount := t1.fixCount + 1 }
  (⟨cost, t2.dailySpend, t2.fixCount, t2.dailyLimit, t2.dailyLimit - t2.dailySpend⟩, t2)

/-- JavaScript `options.x || default` for numeric options: `0` is falsy. -/
def jsOrRat (o : Option Rat) (d : Rat) : Rat :=
  match o with
  | some x => if x = 0 then d else x
  | none => d

/-- Embedding of `createCostTracker` (cost-monitor.js lines 152-159):
fresh counters, today's date string, defaulted limits. -/
def createCostTracker (today : String) (dailyLimitOpt perFixLimitOpt : Option Rat) :
    CostTracker :=
  { dailySpend := 0, fixCount := 0, lastReset := today,
    dailyLimit := jsOrRat dailyLimitOpt 10, perFixLimit := jsOrRat perFixLimitOpt 2 }

/-! ## The fix engine (bug-fixer.js lines 199-332)

`FixEnv` fixes the outcome of every effectful collaborator touched during
one `fixBug` call: the external budget gate, the generateText call, the
GitHub cost tracker, the test run, and the two file writes.  A write either
succeeds atomically or throws the recorded message leaving the content as
it was. -/

structure FixEnv where
  limitAllowed : Bool
  limitReason : String
  proposer : Except String String
  trackerAvailable : Bool
  usagePresent : Bool
  trackOk : Bool
  testsPass : Bool
  testOutput : String
  testError : String
  applyWriteErr : Option String
  rollbackWriteErr : Option String

structure ProposeOut where
  code : String
  costTrackInvoked : Bool
  deriving DecidableEq

/-- Embedding of `analyzeAndFix` (bug-fixer.js lines 199-237): throw when
the advisory budget gate rejects; propagate a proposer exception; otherwise
invoke the GitHub cost tracker only when it is available and usage data is
present (a `trackCost` rejection is caught and only warned about), and
return the normalized response.  `costTrackInvoked` records whether the
tracking call was made at all. -/
def analyzeAndFix (env : FixEnv) : Except String ProposeOut :=
  if !env.limitAllowed then Except.error env.limitReason
  else
    match env.proposer with
    | Except.error e => Except.error e
    | Except.ok text =>
        Except.ok ⟨extractCleanCode text, env.trackerAvailable && env.usagePresent⟩

structure ApplyTestResult where
  success : Bool
  testOutput : String
  error : Option String
  deriving DecidableEq

/-- Embedding of `applyAndTest` (bug-fixer.js lines 251-277) over the
single-file store: write the fixed code, run the tests, and on failure
write the original back before returning.  Either write may throw, in
which case the store keeps the content it had at the throw. -/
def applyAndTest (env : FixEnv) (originalCode fixedCode : String)
    (fs : Option String) : Except String ApplyTestResult × Option String :=
  match env.applyWriteErr with
  | some e => (Except.error e, fs)
  | none =>
    if env.testsPass then
      (Except.ok ⟨true, env.testOutput, none⟩, some fixedCode)
    else
      match env.rollbackWriteErr with
      | some e => (Except.error e, some fixedCode)
      | none => (Except.ok ⟨false, env.testOutput, some env.testError⟩, some originalCode)

/-- The body of `fixBug` (bug-fixer.js lines 286-332) inside its `try`:
`Except.error` is an exception about to reach the surrounding `catch`. -/
def fixBugBody (env : FixEnv) (filename : String) (fs : Option String) :
    Except String FixBugResult × Option String :=
  match fs with
  | none => (Except.error ("File not found: " ++ filename), fs)
  | some originalCode =>
    match analyzeAndFix env with
    | Except.error e => (Except.error e, some originalCode)
    | Except.ok p =>
      match applyAndTest env originalCode p.code (some originalCode) with
      | (Except.error e, fs') => (Except.error e, fs')
      | (Except.ok tr, fs') =>
        if tr.success then (Except.ok (createSuccessResult originalCode p.code filename), fs')
        else (Except.ok (createErrorResult filename "Tests failed after applying fix"), fs')

/-- Embedding of `fixBug`: the surrounding catch-all converts any thrown
error into an error result value. -/
def fixBug (env : FixEnv) (filename : String) (fs : Option String) :
    FixBugResult × Option String :=
  match fixBugBody env filename fs with
  | (Except.ok r, fs') => (r, fs')
  | (Except.error e, fs') => (createErrorResult filename e, fs')

/-! ## CI batch result (ci-bug-fixer section, lines 535-547) -/

structure CIResult where
  totalAttempted : Nat
  successful : Nat
  failed : Nat
  fixes : List FixBugResult
  deriving DecidableEq

/-- Embedding of `createCIResult`: counts of successful and failed fixes. -/
def createCIResult (fixes : List FixBugResult) : CIResult :=
  { totalAttempted := fixes.length,
    successful := (fixes.filter (fun f => f.success)).length,
    failed := (fixes.filter (fun f => !f.success)).length,
    fixes := fixes }

/-! ## Retry driver (ci-bug-fixer section, lines 779-810)

One `runCIFix` round plus the test rerun that follows it is an effectful
call; a `CIRound` records its outcome, indexed by the attempt number. -/

structure CIRound where
  result : CIResult
  testsPassAfter : Bool

structure RetryResult where
  result : Option CIResult
  finalTestsPassed : Bool
  attempts : Nat
  deriving DecidableEq

/-- The retry loop of `runCIFixWithRetries`: `fuel` is the number of
remaining rounds, `attempt` the 1-based number of the next round, and
`last` the previous round's result (spread into the returned record). -/
def retryGo (rounds : Nat → CIRound) (maxRetries : Nat) :
    Nat → Nat → Option CIResult → RetryResult
  | 0, _, last => ⟨last, false, maxRetries⟩
  | fuel + 1, attempt, _ =>
    let r := rounds attempt
    if r.testsPassAfter then ⟨some r.result, true, attempt⟩
    else retryGo rounds maxRetries fuel (attempt + 1) (some r.result)

/-- Embedding of `runCIFixWithRetries`: up to `maxRetries` rounds starting
at attempt 1. -/
def runCIFixWithRetries (rounds : Nat → CIRound) (maxRetries : Nat) : RetryResult :=
  retryGo rounds maxRetries maxRetries 1 none

/-! ## Test-output parsing (ci-bug-fixer section, lines 439-510)

Exact embedding of the two regex scans.  The first regex is
`at \w+.*\(([^)]+\.js):\d+:\d+\)` with JavaScript semantics: leftmost
starting position wins, `.*` is greedy and stops at line breaks, and the
bracket group is tried longest-first.  The second is the global scan
`(?:at|in|from)\s+([a-zA-Z0-9/_-]+\.js)`, whose pieces are deterministic
because no backtracking alternative can succeed once the greedy runs are
fixed. -/

/-- The regex class `\w`. -/
def isWordChar (c : Char) : Bool := c.isAlphanum || c == '_'

/-- A character matched by `.` (anything but a line break). -/
def isDotChar (c : Char) : Bool := !(c == '\n' || c == '\r')

/-- Substring test, as JavaScript `String.includes`. -/
def containsSeq (pat : List Char) : List Char → Bool
  | [] => pat.isPrefixOf ([] : List Char)
  | c :: t => pat.isPrefixOf (c :: t) || containsSeq pat t

/-- Match `:\d+:\d+\)` at the front of `l` (both digit runs nonempty). -/
def matchColonDigits (l : List Char) : Bool :=
  match l with
  | ':' :: r =>
    if (r.takeWhile Char.isDigit).isEmpty then false
    else
      match r.dropWhile Char.isDigit with
      | ':' :: r2 =>
        if (r2.takeWhile Char.isDigit).isEmpty then false
        else
          match r2.dropWhile Char.isDigit with
          | ')' :: _ => true
          | _ => false
      | _ => false
  | _ => false

/-- Try the capture group `[^)]+\.js` splits longest-first: `k` bounds the
length of the `[^)]+` part; the capture is that part plus `.js`, and the
remainder must match `:\d+:\d+\)`. -/
def tryGroupFrom (l : List Char) : Nat → Option (List Char)
  | 0 => none
  | k + 1 =>
    if (l.drop (k + 1)).take 3 == ['.', 'j', 's'] && matchColonDigits (l.drop (k + 4)) then
      some (l.take (k + 4))
    else tryGroupFrom l k

/-- Match `([^)]+\.js):\d+:\d+\)` at the front of `l`, greedily. -/
def tryGroup (l : List Char) : Option (List Char) :=
  tryGroupFrom l (l.takeWhile (fun c => !(c == ')'))).length

/-- Scan for the `(` consumed after `.*`, rightmost first (greedy `.*`),
requiring no line break among the skipped characters. -/
def goJ (l : List Char) : Nat → Option (List Char)
  | 0 => none
  | j + 1 =>
    if l.get? j == some '(' && (l.take j).all isDotChar then
      match tryGroup (l.drop (j + 1)) with
      | some g => some g
      | none => goJ l j
    else goJ l j

/-- The `.*\(group...` tail of the first regex. -/
def tryDotStarParen (l : List Char) : Option (List Char) := goJ l l.length

/-- Match the whole first regex at the start of `l`: literal `at `, one
word character (the mandatory first of `\w+`; the rest is absorbed by the
`.*` search), then the parenthesised group. -/
def matchAAt : List Char → Option (List Char)
  | 'a' :: 't' :: ' ' :: c :: rest =>
    if isWordChar c then tryDotStarParen rest else none
  | _ => none

/-- First match of the stack-frame regex over all start positions. -/
def matchAFirst : List Char → Option (List Char)
  | [] => none
  | c :: t =>
    match matchAAt (c :: t) with
    | some g => some g
    | none => matchAFirst t

/-- The file-extracting part of `parseTestOutput` (lines 439-463):
fallback `./cart.js`, overridden by a valid stack-trace capture, prefixed
with `./` when missing. -/
def parseFile (output : List Char) : List Char :=
  match matchAFirst output with
  | none => "./cart.js".data
  | some m =>
    if containsSeq ".test.".data m || containsSeq "node_modules".data m then
      "./cart.js".data
    else if ("./".data).isPrefixOf m then m
    else '.' :: '/' :: m

/-- The regex class `[a-zA-Z0-9/_-]`. -/
def isSecChar (c : Char) : Bool := c.isAlphanum || c == '/' || c == '_' || c == '-'

/-- Match the secondary regex at the start of `l`; on success return the
capture and the remainder after the match. -/
def matchSecAt (l : List Char) : Option (List Char × List Char) :=
  let kwRest : Option (List Char) :=
    if ("at".data).isPrefixOf l then some (l.drop 2)
    else if ("in".data).isPrefixOf l then some (l.drop 2)
    else if ("from".data).isPrefixOf l then some (l.drop 4)
    else none
  match kwRest with
  | none => none
  | some r =>
    if (r.takeWhile isJsSpace).isEmpty then none
    else
      let r2 := r.dropWhile isJsSpace
      let run := r2.takeWhile isSecChar
      if run.isEmpty then none
      else
        let r3 := r2.dropWhile isSecChar
        if (".js".data).isPrefixOf r3 then some (run ++ ".js".data, r3.drop 3)
        else none

/-- `matchAll` scan: left to right, resuming after each match.  The fuel
starts at the list length, which every step stays below. -/
def matchSecAllGo : Nat → List Char → List (List Char)
  | 0, _ => []
  | _ + 1, [] => []
  | fuel + 1, c :: t =>
    match matchSecAt (c :: t) with
    | some (cap, rest) => cap :: matchSecAllGo fuel rest
    | none => matchSecAllGo fuel t

/-- All matches of the secondary regex. -/
def matchSecAll (l : List Char) : List (List Char) := matchSecAllGo l.length l

/-- JavaScript `Set.add` on an insertion-ordered list. -/
def setInsert (l : List String) (x : String) : List String :=
  if x ∈ l then l else l ++ [x]

/-- One iteration of the secondary-file loop of `identifyFilesToFix`. -/
def addSecondary (fileOnDisk : String → Bool) (acc : List String)
    (cap : List Char) : List String :=
  if !containsSeq "test".data cap && !containsSeq "node_modules".data cap then
    let path : List Char := if ("./".data).isPrefixOf cap then cap else '.' :: '/' :: cap
    if fileOnDisk ⟨path⟩ then setInsert acc ⟨path⟩ else acc
  else acc

/-- Embedding of `identifyFilesToFix` (lines 488-510): the primary
stack-trace file when it exists on disk, then every existing non-test
secondary mention, deduplicated in insertion order.  `fileOnDisk` is the
`existsSync` oracle. -/
def identifyFilesToFix (fileOnDisk : String → Bool) (output : String) : List String :=
  let primary : String := ⟨parseFile output.data⟩
  let files0 : List String :=
    if primary != "" && fileOnDisk primary then [primary] else []
  (matchSecAll output.data).foldl (addSecondary fileOnDisk) files0

/-! ## Concrete environments used by counterexamples and witnesses -/

/-- A run whose proposer succeeds, whose tests fail, and whose mandatory
rollback write throws an I/O error. -/
def envRollbackFault : FixEnv :=
  { limitAllowed := true, limitReason := "", proposer := Except.ok "x",
    trackerAvailable := true, usagePresent := true, trackOk := true,
    testsPass := false, testOutput := "out", testError := "err",
    applyWriteErr := none, rollbackWriteErr := some "EIO: disk failure" }

/-- A run whose proposer succeeds while the GitHub cost tracker is not
available, so no cost-tracking call is made. -/
def envNoTracker : FixEnv :=
  { limitAllowed := true, limitReason := "", proposer := Except.ok "x",
    trackerAvailable := false, usagePresent := true, trackOk := true,
    testsPass := false, testOutput := "out", testError := "err",
    applyWriteErr := none, rollbackWriteErr := none }

/-- A run whose proposer returns a fence with no content (normalizing to
the empty string) and whose verification test run passes. -/
def envEmptyPatchPass : FixEnv :=
  { limitAllowed := true, limitReason := "", proposer := Except.ok "```\n```",
    trackerAvailable := true, usagePresent := true, trackOk := true,
    testsPass := true, testOutput := "ok", testError := "",
    applyWriteErr := none, rollbackWriteErr := none }

/-- A run whose proposer returns a fence with no content and whose
verification test run fails, with both writes succeeding. -/
def envEmptyPatchFail : FixEnv :=
  { limitAllowed := true, limitReason := "", proposer := Except.ok "```\n```",
    trackerAvailable := true, usagePresent := true, trackOk := true,
    testsPass := false, testOutput := "boom", testError := "err",
    applyWriteErr := none, rollbackWriteErr := none }

/-- A fully successful run: fenced proposer output, passing tests. -/
def envHappy : FixEnv :=
  { limitAllowed := true, limitReason := "", proposer := Except.ok "```js\nfixed\n```",
    trackerAvailable := true, usagePresent := true, trackOk := true,
    testsPass := true, testOutput := "ok", testError := "",
    applyWriteErr := none, rollbackWriteErr := none }

/-- Existence oracle for a disk holding only `./cart.js`. -/
def fsCartOnly : String → Bool := fun p => p == "./cart.js"

/-- Existence oracle for a disk holding `./cart.js` and `./lib.js`. -/
def fsCartLib : String → Bool := fun p => p == "./cart.js" || p == "./lib.js"

/-- The scenario-B test output: exactly one stack frame. -/
def scenarioB : String := "at foo (./cart.js:10:3)"

/-- A test output that contains the scenario-B frame on its second line,
after a frame naming another existing file. -/
def outTwoFrames : String := "at bar (./lib.js:1:1)\nat foo (./cart.js:10:3)"

/-- The batch result of a round that attempted nothing. -/
def emptyCI : CIResult := createCIResult []

/-- Rounds for scenario D: the test command passes already after round 1. -/
def roundsPassFirst : Nat → CIRound := fun _ => ⟨emptyCI, true⟩

/-- A tracker mid-day: some spend recorded on day "Mon Oct 06 2025". -/
def trackerMonday : CostTracker :=
  { dailySpend := 3, fixCount := 2, lastReset := "Mon Oct 06 2025",
    dailyLimit := 10, perFixLimit := 2 }

/-! ## Helper lemmas: trim -/

theorem dropWhile_dropWhile (p : Char → Bool) (l : List Char) :
    (l.dropWhile p).dropWhile p = l.dropWhile p := by
  induction l with
  | nil => rfl
  | cons a t ih =>
      by_cases h : p a
      · simp [List.dropWhile_cons, h, ih]
      · simp [List.dropWhile_cons, h]

theorem dropWhile_head_false (p : Char → Bool) (l : List Char) (a : Char)
    (t : List Char) (h : l.dropWhile p = a :: t) : p a = false := by
  induction l with
  | nil => simp [List.dropWhile] at h
  | cons b u ih =>
      by_cases hb : p b
      · exact ih (by simpa [List.dropWhile_cons, hb] using h)
      · rw [List.dropWhile_cons_of_neg hb] at h
        cases h
        simpa using hb

theorem dropWhile_eq_self_of_head (p : Char → Bool) (l : List Char)
    (h : ∀ a t, l = a :: t → p a = false) : l.dropWhile p = l := by
  cases l with
  | nil => rfl
  | cons a t => exact List.dropWhile_cons_of_neg (by simp [h a t rfl])

theorem exists_append_dropWhile (p : Char → Bool) (l : List Char) :
    ∃ m, l = m ++ l.dropWhile p := by
  induction l with
  | nil => exact ⟨[], rfl⟩
  | cons a t ih =>
      by_cases h : p a
      · obtain ⟨m, hm⟩ := ih
        exact ⟨a :: m, by simp [List.dropWhile_cons, h, ← hm]⟩
      · exact ⟨[], by simp [List.dropWhile_cons, h]⟩

theorem trimL_trimL (l : List Char) : trimL (trimL l) = trimL l := by
  unfold trimL
  obtain ⟨u, hu⟩ := exists_append_dropWhile isJsSpace
    ((l.dropWhile isJsSpace).reverse)
  set A := l.dropWhile isJsSpace with hA
  set B := A.reverse.dropWhile isJsSpace with hB
  have hBA : A = B.reverse ++ u.reverse := by
    have := congrArg List.reverse hu
    simpa [List.reverse_append] using this
  have hdropB : B.reverse.dropWhile isJsSpace = B.reverse := by
    apply dropWhile_eq_self_of_head
    intro a t hat
    have hAa : A = a :: (t ++ u.reverse) := by simp [hBA, hat]
    exact dropWhile_head_false isJsSpace l a (t ++ u.reverse) (by rw [← hA, hAa])
  rw [hdropB]
  simp only [List.reverse_reverse]
  rw [hB, dropWhile_dropWhile]

theorem ecc_trimmed (l : List Char) : trimL (ecc l) = ecc l := by
  unfold ecc
  rw [trimL_trimL]

theorem ecc_idem_of_no_fence (l : List Char)
    (hl : fenceMark.isPrefixOf (ecc l) = false) : ecc (ecc l) = ecc l := by
  show trimL (eccMid (trimL (ecc l))) = ecc l
  rw [ecc_trimmed]
  have hmid : eccMid (ecc l) = ecc l := by
    unfold eccMid
    rw [hl]
    simp
  rw [hmid, ecc_trimmed]

/-! ## Helper lemmas: split and join -/

theorem splitLines_ne_nil (l : List Char) : splitLines l ≠ [] := by
  cases l with
  | nil => simp [splitLines]
  | cons c t =>
      simp only [splitLines]
      split
      · simp
      · split <;> simp

theorem joinNl_splitLines (l : List Char) : joinNl (splitLines l) = l := by
  induction l with
  | nil => rfl
  | cons c t ih =>
      by_cases hc : c = '\n'
      · subst hc
        simp only [splitLines, if_pos rfl]
        rcases hS : splitLines t with _ | ⟨h, r⟩
        · exact absurd hS (splitLines_ne_nil t)
        · rw [hS] at ih
          simp [joinNl, ih]
      · simp only [splitLines, if_neg hc]
        rcases hS : splitLines t with _ | ⟨h, r⟩
        · exact absurd hS (splitLines_ne_nil t)
        · rw [hS] at ih
          cases r with
          | nil => simpa [joinNl] using ih
          | cons r0 r1 =>
              simp only [joinNl] at ih ⊢
              simp [ih]

theorem changedCount_eq_zero_iff (xs : List (List Char)) :
    ∀ ys, changedCount xs ys = 0 ↔ xs = ys := by
  induction xs with
  | nil =>
      intro ys
      cases ys with
      | nil => simp [changedCount]
      | cons b tb => simp [changedCount]
  | cons a ta ih =>
      intro ys
      cases ys with
      | nil => simp [changedCount]
      | cons b tb =>
          simp only [changedCount]
          by_cases hab : a = b
          · subst hab
            simp [ih]
          · simp [hab]

/-! ## Helper lemmas: batch counts -/

theorem length_filter_add_length_filter_not (l : List FixBugResult) :
    (l.filter (fun f => f.success)).length +
      (l.filter (fun f => !f.success)).length = l.length := by
  induction l with
  | nil => rfl
  | cons a t ih =>
      by_cases h : a.success <;> simp [List.filter_cons, h] <;> omega

/-! ## Helper lemmas: the retry loop -/

theorem retryGo_pass (rounds rounds2 : Nat → CIRound) (maxR n : Nat)
    (hpass : (rounds n).testsPassAfter = true) :
    ∀ fuel attempt last, attempt ≤ n → n < attempt + fuel →
      (∀ k, attempt ≤ k → k < n → (rounds k).testsPassAfter = false) →
      (∀ k, k ≤ n → rounds2 k = rounds k) →
      retryGo rounds2 maxR fuel attempt last = ⟨some (rounds n).result, true, n⟩ := by
  intro fuel
  induction fuel with
  | zero =>
      intro attempt last h1 h2 _ _
      exact absurd h2 (by omega)
  | succ f ih =>
      intro attempt last h1 h2 hfail hagree
      by_cases heq : attempt = n
      · subst heq
        simp [retryGo, hagree attempt le_rfl, hpass]
      · have hlt : attempt < n := lt_of_le_of_ne h1 heq
        have hf : (rounds attempt).testsPassAfter = false := hfail attempt le_rfl hlt
        have ha2 : rounds2 attempt = rounds attempt := hagree attempt (le_of_lt hlt)
        simp only [retryGo, ha2, hf, Bool.false_eq_true, if_false]
        exact ih (attempt + 1) (some (rounds attempt).result) hlt (by omega)
          (fun k hk1 hk2 => hfail k (by omega) hk2) hagree

theorem retryGo_fail (rounds : Nat → CIRound) (maxR : Nat) :
    ∀ fuel attempt last,
      (∀ k, attempt ≤ k → k < attempt + fuel → (rounds k).testsPassAfter = false) →
      (retryGo rounds maxR fuel attempt last).finalTestsPassed = false ∧
      (retryGo rounds maxR fuel attempt last).attempts = maxR := by
  intro fuel
  induction fuel with
  | zero => intro attempt last _; exact ⟨rfl, rfl⟩
  | succ f ih =>
      intro attempt last hfail
      have h0 : (rounds attempt).testsPassAfter = false :=
        hfail attempt le_rfl (by omega)
      simp only [retryGo, h0, Bool.false_eq_true, if_false]
      exact ih (attempt + 1) (some (rounds attempt).result)
        (fun k hk1 hk2 => hfail k (by omega) (by omega))

/-! ## Helper lemmas: deduplication in identifyFilesToFix -/

theorem setInsert_nodup (l : List String) (x : String) (h : l.Nodup) :
    (setInsert l x).Nodup := by
  unfold setInsert
  split
  · exact h
  · next hx => simp [List.nodup_append, h, hx]

theorem addSecondary_nodup (fileOnDisk : String → Bool) (acc : List String)
    (cap : List Char) (h : acc.Nodup) : (addSecondary fileOnDisk acc cap).Nodup := by
  unfold addSecondary
  dsimp only
  repeat' split
  all_goals first
    | exact setInsert_nodup _ _ h
    | exact h

theorem foldl_addSecondary_nodup (fileOnDisk : String → Bool) (caps : List (List Char)) :
    ∀ acc : List String, acc.Nodup →
      (caps.foldl (addSecondary fileOnDisk) acc).Nodup := by
  induction caps with
  | nil => intro acc h; exact h
  | cons c t ih =>
      intro acc h
      exact ih _ (addSecondary_nodup _ _ _ h)

/-! ## Helper lemmas: day rollover -/

theorem checkAndResetDaily_dailyLimit (today : String) (t : CostTracker) :
    (checkAndResetDaily today t).dailyLimit = t.dailyLimit := by
  unfold checkAndResetDaily
  split <;> rfl

theorem checkAndResetDaily_perFixLimit (today : String) (t : CostTracker) :
    (checkAndResetDaily today t).perFixLimit = t.perFixLimit := by
  unfold checkAndResetDaily
  split <;> rfl

/-! ## Claim theorems -/

/-- C4: for every cost tracker and every estimatedCost, `canAfford` returns
`allowed = true` iff the estimate is within the per-operation limit and
`dailySpend + estimatedCost ≤ dailyLimit`, where `dailySpend` is taken after
the lazy day-rollover: when today's date differs from the stored
`lastReset`, the counters are zeroed before the two conditions are
evaluated (and the state is unchanged when the date matches). -/
theorem canAfford_spec (today : String) (est : Rat) (t : CostTracker) :
    ((canAfford today est t).1.allowed = true ↔
      ((checkAndResetDaily today t).dailySpend + est ≤ t.dailyLimit ∧
        est ≤ t.perFixLimit)) ∧
    (canAfford today est t).2 = checkAndResetDaily today t ∧
    (today ≠ t.lastReset →
      (checkAndResetDaily today t).dailySpend = 0 ∧
      (checkAndResetDaily today t).fixCount = 0) ∧
    (today = t.lastReset → checkAndResetDaily today t = t) := by
  refine ⟨?_, rfl, ?_, ?_⟩
  · unfold canAfford
    simp only [Bool.and_eq_true, decide_eq_true_eq]
    rw [checkAndResetDaily_dailyLimit, checkAndResetDaily_perFixLimit]
  · intro h
    unfold checkAndResetDaily
    rw [if_pos h]
    exact ⟨rfl, rfl⟩
  · intro h
    unfold checkAndResetDaily
    rw [if_neg (by simp [h])]

/-- Witness for C4: a concrete rollover on a tracker last reset on another
day zeroes both counters. -/
theorem canAfford_spec_witness :
    (checkAndResetDaily "Tue Oct 07 2025" trackerMonday).dailySpend = 0 ∧
    (checkAndResetDaily "Tue Oct 07 2025" trackerMonday).fixCount = 0 :=
  (canAfford_spec "Tue Oct 07 2025" 1 trackerMonday).2.2.1 (by decide)

/-- C7: for every batch result built by `createCIResult` from any list of
fix results, `successful + failed = totalAttempted`. -/
theorem createCIResult_counts (fixes : List FixBugResult) :
    (createCIResult fixes).successful + (createCIResult fixes).failed =
      (createCIResult fixes).totalAttempted := by
  unfold createCIResult
  exact length_filter_add_length_filter_not fixes

/-- C10: `countChangedLines a b = 0` iff `a` and `b` are equal strings, and
hence a success result's `linesChanged` field is zero exactly when the
fixed code is character-for-character identical to the original. -/
theorem countChangedLines_zero_iff (a b fn : String) :
    (countChangedLines a b = 0 ↔ a = b) ∧
    ((createSuccessResult a b fn).linesChanged = some 0 ↔ a = b) := by
  have h1 : countChangedLines a b = 0 ↔ a = b := by
    unfold countChangedLines
    rw [changedCount_eq_zero_iff]
    constructor
    · intro h
      have h2 := congrArg joinNl h
      rw [joinNl_splitLines, joinNl_splitLines] at h2
      cases a
      cases b
      exact congrArg String.mk h2
    · intro h
      rw [h]
  refine ⟨h1, ?_⟩
  simp only [createSuccessResult, Option.some_inj]
  exact h1

/-- C5 counterexample: `extractCleanCode` is not idempotent.  On the input
whose trimmed form starts with a bare fence followed by a newline and a
second fenced-looking line, the first pass only removes the leading fence
and newline, and the second pass then strips the freshly exposed fence. -/
theorem extractCleanCode_not_idempotent :
    extractCleanCode (extractCleanCode "```\n```js\nhello") ≠
      extractCleanCode "```\n```js\nhello" := by decide

/-- C5 as amended: normalization is idempotent on every input whose
normalized form does not itself start with a fence marker (in particular on
all fence-free proposer output), and the fenced scenario normalizes to
exactly `code` with no fence markers or newline artifacts. -/
theorem extractCleanCode_conditional_idem :
    (∀ s : String, fenceMark.isPrefixOf (extractCleanCode s).data = false →
      extractCleanCode (extractCleanCode s) = extractCleanCode s) ∧
    extractCleanCode "```javascript\ncode\n```" = "code" := by
  constructor
  · intro s h
    have h2 : fenceMark.isPrefixOf (ecc s.data) = false := h
    show (⟨ecc (ecc s.data)⟩ : String) = ⟨ecc s.data⟩
    rw [ecc_idem_of_no_fence s.data h2]
  · decide

/-- Witness for C5 (amended): idempotence at a concrete fence-free input. -/
theorem extractCleanCode_conditional_idem_witness :
    extractCleanCode (extractCleanCode "hello") = extractCleanCode "hello" :=
  extractCleanCode_conditional_idem.1 "hello" (by decide)

/-- C8: the retry driver runs at most `maxRetries` rounds; at the first
round `n` whose subsequent test run passes it stops immediately — any
round function agreeing up to `n` gives the same outcome, so no later
round is consulted — and returns `finalTestsPassed = true` with
`attempts = n`; when every round's test rerun fails it returns
`finalTestsPassed = false` with `attempts = maxRetries`. -/
theorem runCIFixWithRetries_spec (rounds : Nat → CIRound) (maxRetries : Nat) :
    (∀ n, 1 ≤ n → n ≤ maxRetries →
      (∀ k, 1 ≤ k → k < n → (rounds k).testsPassAfter = false) →
      (rounds n).testsPassAfter = true →
      ∀ rounds2 : Nat → CIRound, (∀ k, k ≤ n → rounds2 k = rounds k) →
        runCIFixWithRetries rounds2 maxRetries =
          ⟨some (rounds n).result, true, n⟩) ∧
    ((∀ k, 1 ≤ k → k ≤ maxRetries → (rounds k).testsPassAfter = false) →
      (runCIFixWithRetries rounds maxRetries).finalTestsPassed = false ∧
      (runCIFixWithRetries rounds maxRetries).attempts = maxRetries) := by
  constructor
  · intro n h1 h2 hfail hpass rounds2 hagree
    exact retryGo_pass rounds rounds2 maxRetries n hpass maxRetries 1 none h1
      (by omega) hfail hagree
  · intro hfail
    exact retryGo_fail rounds maxRetries maxRetries 1 none
      (fun k hk1 hk2 => hfail k hk1 (by omega))

/-- Witness for C8 (scenario D): the test command passes after round 1 of
3, so the driver stops at `attempts = 1` with `finalTestsPassed = true`. -/
theorem runCIFixWithRetries_spec_witness :
    runCIFixWithRetries roundsPassFirst 3 = ⟨some emptyCI, true, 1⟩ :=
  (runCIFixWithRetries_spec roundsPassFirst 3).1 1 (by decide) (by decide)
    (fun k hk1 hk2 => absurd (Nat.lt_of_le_of_lt hk1 hk2) (Nat.lt_irrefl 1))
    rfl roundsPassFirst (fun _ _ => rfl)

/-- C9 counterexample: an output that merely contains the frame
`at foo (./cart.js:10:3)` need not map to `['./cart.js']`: when an earlier
line's frame names another existing file, the first stack-trace match wins
and the result is `['./lib.js']`. -/
theorem identifyFilesToFix_contains_counterexample :
    containsSeq "at foo (./cart.js:10:3)".data outTwoFrames.data = true ∧
    fsCartLib "./cart.js" = true ∧
    identifyFilesToFix fsCartLib outTwoFrames = ["./lib.js"] ∧
    identifyFilesToFix fsCartLib outTwoFrames ≠ ["./cart.js"] := by decide

/-- C9 as amended: when the test output consists exactly of the stack
frame `at foo (./cart.js:10:3)` and `./cart.js` exists on disk,
`identifyFilesToFix` returns exactly `['./cart.js']`; and for every
existence oracle and every output, the returned list mentions every file
path at most once. -/
theorem identifyFilesToFix_spec :
    identifyFilesToFix fsCartOnly scenarioB = ["./cart.js"] ∧
    ∀ (fileOnDisk : String → Bool) (output : String),
      (identifyFilesToFix fileOnDisk output).Nodup := by
  constructor
  · decide
  · intro fileOnDisk output
    unfold identifyFilesToFix
    dsimp only
    apply foldl_addSecondary_nodup
    split
    · exact List.nodup_singleton _
    · exact List.nodup_nil

/-- C1 counterexample: when tests fail and the mandatory rollback write
itself throws, `fixBug` returns a failure result while the proposed patch
— not the original content — is still on disk, so the dichotomy in the
claim does not hold for every attempt that returns. -/
theorem fixBug_rollback_fault_breaks_dichotomy :
    (fixBug envRollbackFault "a.js" (some "orig")).1.success = false ∧
    (fixBug envRollbackFault "a.js" (some "orig")).2 = some "x" ∧
    (fixBug envRollbackFault "a.js" (some "orig")).2 ≠ some "orig" := by decide

/-- C1 as amended: provided the rollback write does not fault, the file's
content after `fixBug` returns equals the normalized proposed patch when
the verification run passed and exactly the original pre-attempt content
in every other outcome; in particular the rollback completes before any
failure result is reported and no intermediate state survives. -/
theorem fixBug_disk_dichotomy (env : FixEnv) (fn orig : String)
    (hrb : env.rollbackWriteErr = none) :
    ((fixBug env fn (some orig)).1.success = false →
      (fixBug env fn (some orig)).2 = some orig) ∧
    (∀ raw, env.proposer = Except.ok raw →
      (fixBug env fn (some orig)).1.success = true →
      env.testsPass = true ∧
      (fixBug env fn (some orig)).2 = some (extractCleanCode raw)) := by
  cases hla : env.limitAllowed with
  | false => simp [fixBug, fixBugBody, analyzeAndFix, hla, createErrorResult]
  | true =>
    cases hp : env.proposer with
    | error e =>
        simp [fixBug, fixBugBody, analyzeAndFix, hla, hp, createErrorResult]
    | ok raw0 =>
        cases haw : env.applyWriteErr with
        | some e =>
            simp [fixBug, fixBugBody, analyzeAndFix, applyAndTest, hla, hp, haw,
              createErrorResult]
        | none =>
            cases htp : env.testsPass with
            | false =>
                simp [fixBug, fixBugBody, analyzeAndFix, applyAndTest, hla, hp,
                  haw, htp, hrb, createErrorResult]
            | true =>
                simp [fixBug, fixBugBody, analyzeAndFix, applyAndTest, hla, hp,
                  haw, htp, createSuccessResult]

/-- Witness for C1 (amended): a fully successful concrete run leaves the
normalized patch on disk. -/
theorem fixBug_disk_dichotomy_witness :
    envHappy.testsPass = true ∧
    (fixBug envHappy "a.js" (some "orig")).2 =
      some (extractCleanCode "```js\nfixed\n```") :=
  (fixBug_disk_dichotomy envHappy "a.js" "orig" rfl).2 "```js\nfixed\n```" rfl rfl

/-- C2 counterexample: an I/O fault thrown during the mandatory rollback
write does not propagate out of `fixBug`: the body raises it, but the
surrounding catch-all converts it into an ordinary failure result value
(leaving the failed patch on disk), so it never terminates the run. -/
theorem fixBug_swallows_rollback_write_fault :
    fixBugBody envRollbackFault "a.js" (some "orig") =
      (Except.error "EIO: disk failure", some "x") ∧
    fixBug envRollbackFault "a.js" (some "orig") =
      (createErrorResult "a.js" "EIO: disk failure", some "x") :=
  ⟨rfl, rfl⟩

/-- C2 as amended: every error in the taxonomy — target file missing,
budget gate tripped, proposer failure, tests failing after the patch, and
also an I/O fault during the rollback write itself — is captured inside
`fixBug` and converted into a failure result value; no exception crosses
the Fix Engine boundary into the CI driver. -/
theorem fixBug_error_capture (env : FixEnv) (fn orig : String) :
    (fixBug env fn none).1 = createErrorResult fn ("File not found: " ++ fn) ∧
    (env.limitAllowed = false →
      fixBug env fn (some orig) = (createErrorResult fn env.limitReason, some orig)) ∧
    (∀ e, env.limitAllowed = true → env.proposer = Except.error e →
      fixBug env fn (some orig) = (createErrorResult fn e, some orig)) ∧
    (∀ raw, env.limitAllowed = true → env.proposer = Except.ok raw →
      env.applyWriteErr = none → env.testsPass = false →
      env.rollbackWriteErr = none →
      fixBug env fn (some orig) =
        (createErrorResult fn "Tests failed after applying fix", some orig)) ∧
    (∀ raw e, env.limitAllowed = true → env.proposer = Except.ok raw →
      env.applyWriteErr = none → env.testsPass = false →
      env.rollbackWriteErr = some e →
      fixBug env fn (some orig) =
        (createErrorResult fn e, some (extractCleanCode raw))) := by
  refine ⟨rfl, ?_, ?_, ?_, ?_⟩
  · intro h
    simp [fixBug, fixBugBody, analyzeAndFix, h]
  · intro e hl hp
    simp [fixBug, fixBugBody, analyzeAndFix, hl, hp]
  · intro raw hl hp ha ht hr
    simp [fixBug, fixBugBody, analyzeAndFix, applyAndTest, hl, hp, ha, ht, hr]
  · intro raw e hl hp ha ht hr
    simp [fixBug, fixBugBody, analyzeAndFix, applyAndTest, hl, hp, ha, ht, hr]

/-- Witness for C2 (amended): the rollback-fault conversion at a concrete
environment. -/
theorem fixBug_error_capture_witness :
    fixBug envRollbackFault "a.js" (some "orig") =
      (createErrorResult "a.js" "EIO: disk failure",
        some (extractCleanCode "x")) :=
  (fixBug_error_capture envRollbackFault "a.js" "orig").2.2.2.2 "x"
    "EIO: disk failure" rfl rfl rfl rfl rfl

/-- C3 counterexample: a fix attempt whose proposer call completes but
whose GitHub cost tracker is unavailable makes no cost-recording call at
all, so the record operation is not invoked unconditionally. -/
theorem analyzeAndFix_no_record_when_tracker_unavailable :
    envNoTracker.proposer = Except.ok "x" ∧
    envNoTracker.trackerAvailable = false ∧
    analyzeAndFix envNoTracker =
      Except.ok { code := "x", costTrackInvoked := false } :=
  ⟨rfl, rfl, rfl⟩

/-- C3 as amended: when the proposer call completes, the cost-tracking
call is made exactly when the GitHub tracker is available and usage data
is present, and this decision is independent of the later fix outcome
(it does not depend on the test result); the local ledger's `recordFix`
— not invoked on this path — unconditionally adds the cost to the daily
spend and increments the operation count, and, being total, never
rejects. -/
theorem costRecording_spec (env : FixEnv) (raw today : String) (c : Rat)
    (t : CostTracker) (hl : env.limitAllowed = true)
    (hp : env.proposer = Except.ok raw) :
    analyzeAndFix env =
      Except.ok ⟨extractCleanCode raw, env.trackerAvailable && env.usagePresent⟩ ∧
    (∀ b, analyzeAndFix { env with testsPass := b } = analyzeAndFix env) ∧
    (recordFix today c t).2.dailySpend = (checkAndResetDaily today t).dailySpend + c ∧
    (recordFix today c t).2.fixCount = (checkAndResetDaily today t).fixCount + 1 := by
  refine ⟨?_, ?_, rfl, rfl⟩
  · simp [analyzeAndFix, hl, hp]
  · intro b
    rfl

/-- Witness for C3 (amended): a concrete completing run with the tracker
available makes the tracking call. -/
theorem costRecording_spec_witness :
    analyzeAndFix envHappy =
      Except.ok ⟨extractCleanCode "```js\nfixed\n```",
        envHappy.trackerAvailable && envHappy.usagePresent⟩ :=
  (costRecording_spec envHappy "```js\nfixed\n```" "Tue Oct 07 2025" 1
    trackerMonday rfl rfl).1

/-- C6 counterexample: a proposer response that normalizes to the empty
string is not treated as a failed proposal: it is written and, when the
verification run passes, the empty content is the file's final on-disk
state and the attempt reports success. -/
theorem fixBug_accepts_empty_patch :
    extractCleanCode "```\n```" = "" ∧
    (fixBug envEmptyPatchPass "a.js" (some "orig")).1.success = true ∧
    (fixBug envEmptyPatchPass "a.js" (some "orig")).2 = some "" := by decide

/-- C6 as amended: an empty normalized response takes the ordinary
apply-and-test path: when the verification run fails (and the writes
succeed) the rollback restores the original content and a failure result
is returned; the empty content stays on disk only when the tests pass. -/
theorem fixBug_empty_patch_behavior (env : FixEnv) (fn orig raw : String)
    (hl : env.limitAllowed = true) (hp : env.proposer = Except.ok raw)
    (he : extractCleanCode raw = "") (ha : env.applyWriteErr = none)
    (hr : env.rollbackWriteErr = none) :
    (env.testsPass = false →
      fixBug env fn (some orig) =
        (createErrorResult fn "Tests failed after applying fix", some orig)) ∧
    (env.testsPass = true → (fixBug env fn (some orig)).2 = some "") := by
  constructor
  · intro ht
    simp [fixBug, fixBugBody, analyzeAndFix, applyAndTest, hl, hp, ha, ht, hr]
  · intro ht
    simp [fixBug, fixBugBody, analyzeAndFix, applyAndTest, hl, hp, ha, ht, he]

/-- Witness for C6 (amended): the concrete failing-tests run with an
empty normalized patch rolls back to the original content. -/
theorem fixBug_empty_patch_behavior_witness :
    fixBug envEmptyPatchFail "a.js" (some "orig") =
      (createErrorResult "a.js" "Tests failed after applying fix", some "orig") :=
  (fixBug_empty_patch_behavior envEmptyPatchFail "a.js" "orig" "```\n```"
    rfl rfl rfl rfl rfl).1 rfl
